import Mathlib

/-!
Verification of the audio output engine of the `ieaoo` repository
(`src/audio/alsa.rs`, `src/audio/wasapi.rs`, `src/audio/mod.rs`).

The two backends are shallowly embedded:
* the polling (ALSA) backend's `ALSADriverPrev::write` / `ALSADriver::output`
  and its setters, with the PCM device modelled as a script of responses
  consumed in call order (a mismatching script or exhausted fuel yields
  `none`, i.e. the run is not captured by the script);
* the event-driven (WASAPI) backend's `WASAPIDriverPrev::write` /
  `WASAPIDriver::output` and its setters, with the padding query and the
  event wait modelled as explicit oracle parameters.

`f64` amplitudes are modelled as rationals; the products `a * 32767.0` and
`a * 2147483647.0` are exact in `f64` for the inputs the claims quantify
over, so rational arithmetic is faithful there.  A Rust `as i16` / `as i32`
cast of a float saturates at the integer type's bounds and truncates toward
zero; both aspects are modelled explicitly.
-/

namespace Ieaoo

/-- Decidable equality for `Except` results, so that concrete runs of the
embedded operations can be checked by evaluation. -/
instance {ε α : Type} [DecidableEq ε] [DecidableEq α] : DecidableEq (Except ε α)
  | Except.ok x, Except.ok y =>
    if h : x = y then isTrue (h ▸ rfl) else isFalse (fun hh => h (Except.ok.inj hh))
  | Except.ok _, Except.error _ => isFalse (fun hh => Except.noConfusion hh)
  | Except.error _, Except.ok _ => isFalse (fun hh => Except.noConfusion hh)
  | Except.error e, Except.error f =>
    if h : e = f then isTrue (h ▸ rfl) else isFalse (fun hh => h (Except.error.inj hh))

/-- Truncation toward zero of a rational, as the Rust float→int cast does
before saturation: `⌊x⌋` for nonnegative `x`, `⌈x⌉` otherwise. -/
def ratTrunc (x : ℚ) : ℤ :=
  if 0 ≤ x then ⌊x⌋ else ⌈x⌉

/-- Rust `as i16` on an `f64` value: truncate toward zero, saturating at
the bounds of `i16`. -/
def castI16 (x : ℚ) : ℤ :=
  max (-32768) (min 32767 (ratTrunc x))

/-- Rust `as i32` on an `f64` value: truncate toward zero, saturating at
the bounds of `i32`. -/
def castI32 (x : ℚ) : ℤ :=
  max (-2147483648) (min 2147483647 (ratTrunc x))

/-- `(sample * 32767.0) as i16` — the 16-bit conversion of the polling
backend's `output` (src/audio/alsa.rs line 221) and, written there as
`sample * (32768.0 - 1.0)`, of the event-driven backend's `write`
(src/audio/wasapi.rs line 211). -/
def toI16 (a : ℚ) : ℤ :=
  castI16 (a * 32767)

/-- `(sample * (2147483648.0 - 1.0)) as i32` — the 32-bit integer
conversion of the event-driven backend's `write`. -/
def toI32 (a : ℚ) : ℤ :=
  castI32 (a * (2147483648 - 1))

/-- `sample.min(1.0).max(-1.0)` — the 32-bit float branch clamps the
amplitude to `[-1, 1]` and stores it (the `f32` rounding of the store is
not modelled; no claim depends on it). -/
def clampF32 (a : ℚ) : ℚ :=
  max (-1) (min 1 a)

/-- Mathematical rounding to the nearest integer, as the specification's
`round(amplitude * 32767)` reads; used only to compare the specification
against the code's cast. -/
def specRound16 (a : ℚ) : ℤ :=
  round (a * 32767)

/-! ## Polling backend (src/audio/alsa.rs)

The PCM device is a script: the ordered list of responses the device gives
to the calls `ALSADriverPrev::write` performs (`avail_update`, `wait`,
`recover`, `io_i16`, `writei`).  The embedding consumes the script in call
order; a script whose head does not answer the call the code makes next
yields `none` (the script does not capture that run), as does exhausted
fuel for the unbounded availability loop.  Errors carry the errno the
device reported. -/

/-- One device response, tagged by the call it answers. -/
inductive DevResp where
  /-- `avail_update()` returned `Ok(n)` (`n` in frames). -/
  | availOk (n : ℤ)
  /-- `avail_update()` returned `Err` with the given errno. -/
  | availErr (e : ℤ)
  /-- `wait(None)` returned `Ok`. -/
  | waitOk
  /-- `wait(None)` returned `Err` with the given errno. -/
  | waitErr (e : ℤ)
  /-- `recover(errno, true)` returned `Ok`. -/
  | recovOk
  /-- `recover(errno, true)` returned `Err` with the given errno. -/
  | recovErr (e : ℤ)
  /-- `io_i16()` returned `Ok`. -/
  | ioOk
  /-- `io_i16()` returned `Err` with the given errno. -/
  | ioErr (e : ℤ)
  /-- `writei(output)` returned `Ok(written)` (`written` in frames). -/
  | wriOk (written : ℕ)
  /-- `writei(output)` returned `Err` with the given errno. -/
  | wriErr (e : ℤ)
deriving DecidableEq, Repr

/-- The availability loop of `ALSADriverPrev::write` (alsa.rs lines
58-77): query `avail_update`; on error recover (surfacing a failed
recovery) and retry; if the space is below the buffer length, `wait`
(recovering on a failed wait, surfacing a failed recovery) and re-check
with the still-stale availability, so the loop only exits through a fresh
`avail_update` result `≥ buffer.len()`.  Returns the unconsumed script.
Each iteration of the source loop consumes at least one device response,
so recursion on the script captures every finite run; a run the script
does not answer is `none`. -/
def alsaAvailLoop (bufLen : ℕ) : List DevResp → Option (Except ℤ (List DevResp))
  | DevResp.availOk n :: rest =>
    if n < (bufLen : ℤ) then
      match rest with
      | DevResp.waitOk :: rest2 => alsaAvailLoop bufLen rest2
      | DevResp.waitErr _ :: DevResp.recovOk :: rest2 => alsaAvailLoop bufLen rest2
      | DevResp.waitErr _ :: DevResp.recovErr e2 :: _ => some (Except.error e2)
      | _ => none
    else
      some (Except.ok rest)
  | DevResp.availErr _ :: DevResp.recovOk :: rest => alsaAvailLoop bufLen rest
  | DevResp.availErr _ :: DevResp.recovErr e2 :: _ => some (Except.error e2)
  | _ => none

/-- The delivery-attempt loop of `ALSADriverPrev::write` (alsa.rs lines
81-101): `let mut i = 4; while output.len() > 0 && i >= 0 { i -= 1; ... }`.
Each iteration obtains `io_i16()` (surfacing its error), then calls
`writei`: an accepted write of `written` frames advances the cursor by
`written * 2` samples when that fits; a failed write calls `recover`,
whose own failure is only logged (`eprintln!`) and the loop continues.
Returns the unconsumed script, the unsent remainder, the final value of
`i`, and — recorded for the specification only — the number of `writei`
attempts made. -/
def alsaAttemptLoop (script : List DevResp) (output : List ℤ) (i : ℤ) :
    Option (Except ℤ (List DevResp × List ℤ × ℤ × ℕ)) :=
  if output.length = 0 ∨ i < 0 then
    some (Except.ok (script, output, i, 0))
  else
    match script with
    | DevResp.ioOk :: DevResp.wriOk w :: rest =>
      (alsaAttemptLoop rest
        (if w * 2 ≤ output.length then output.drop (w * 2) else output) (i - 1)).map
        (fun r => r.map (fun p => (p.1, p.2.1, p.2.2.1, p.2.2.2 + 1)))
    | DevResp.ioOk :: DevResp.wriErr _ :: DevResp.recovOk :: rest =>
      (alsaAttemptLoop rest output (i - 1)).map (fun r =>
        r.map (fun p => (p.1, p.2.1, p.2.2.1, p.2.2.2 + 1)))
    | DevResp.ioOk :: DevResp.wriErr _ :: DevResp.recovErr _ :: rest =>
      (alsaAttemptLoop rest output (i - 1)).map (fun r =>
        r.map (fun p => (p.1, p.2.1, p.2.2.1, p.2.2.2 + 1)))
    | DevResp.ioErr e :: _ => some (Except.error e)
    | _ => none

/-- The frame-retention step of `ALSADriverPrev::write` (alsa.rs lines
103-115).  With `i < 0` (attempts exhausted): if nothing was sent
(`output.len() == buffer.len()`), `copy_within(2.., 0)` and
`truncate(len - 2)` retain the buffer minus its first two samples;
otherwise `copy_within(len - output.len().., 0)` and
`truncate(output.len())` retain the last `output.len()` samples.  With
`i ≥ 0` the loop exited by emptying `output`, and `truncate(output.len())`
keeps the first `output.len()` samples.  (The source's `usize`
subtractions are total here via truncated `ℕ` subtraction; for the
buffers the driver builds, `len ≥ 2` whenever the first branch runs.) -/
def alsaRetain (buffer output : List ℤ) (i : ℤ) : List ℤ :=
  if i < 0 then
    if output.length = buffer.length then
      buffer.drop 2
    else
      buffer.drop (buffer.length - output.length)
  else
    buffer.take output.length

/-- `ALSADriverPrev::write` (alsa.rs lines 57-120): availability loop,
then up to the attempt loop, then retention.  `Except.error e` is the
function returning `Err` (the buffer is unchanged in that case, as every
error exit precedes the retention step).  The `ℕ` component is the ghost
count of `writei` attempts. -/
def alsaWrite (script : List DevResp) (buffer : List ℤ) :
    Option (Except ℤ (List ℤ × List DevResp × ℕ)) :=
  match alsaAvailLoop buffer.length script with
  | none => none
  | some (Except.error e) => some (Except.error e)
  | some (Except.ok script1) =>
    match alsaAttemptLoop script1 buffer 4 with
    | none => none
    | some (Except.error e) => some (Except.error e)
    | some (Except.ok (script2, output, i, n)) =>
      some (Except.ok (alsaRetain buffer output i, script2, n))

/-- The input-frame read of `ALSADriver::output` (alsa.rs lines 221-222):
`samples[0]` and `samples[1]`; an out-of-bounds index panics (`none`). -/
def alsaReadFrame (samples : List ℚ) : Option (ℚ × ℚ) :=
  match samples with
  | s0 :: s1 :: _ => some (s0, s1)
  | _ => none

/-- The mutable state of `ALSADriverPrev` that the claims observe. -/
structure AlsaPrev where
  blocking : Bool
  buffer : List ℤ
  bufferSize : ℕ
  frequency : ℕ
  latency : ℕ
  name : String
  periodSize : ℕ
deriving DecidableEq, Repr

/-- `ALSADriver::output` (alsa.rs lines 220-230): convert `samples[0]` and
`samples[1]` with `(s * 32767.0) as i16` and push them; if the buffer now
holds at least `period_size * 2` samples, invoke `write` once (its error
propagating via `?`).  The device script is threaded through and returned
unconsumed when no delivery happens. -/
def alsaOutput (st : AlsaPrev) (script : List DevResp)
    (samples : List ℚ) : Option (Except ℤ (AlsaPrev × List DevResp)) :=
  match alsaReadFrame samples with
  | none => none
  | some (s0, s1) =>
    let buf := st.buffer ++ [toI16 s0, toI16 s1]
    if st.periodSize * 2 ≤ buf.length then
      match alsaWrite script buf with
      | none => none
      | some (Except.error e) => some (Except.error e)
      | some (Except.ok (buf2, rest, _)) =>
        some (Except.ok ({ st with buffer := buf2 }, rest))
    else
      some (Except.ok ({ st with buffer := buf }, script))

/-- The error type the polling backend returns (`super::Error` as used by
alsa.rs, with native ALSA errors carried as their errno). -/
inductive AlsaError where
  | noDevice
  | deviceNotFound (name : String)
  | unsupported (msg : String)
  | native (e : ℤ)
deriving DecidableEq, Repr

/-- `ALSADriver::support_frequencies` (alsa.rs line 160). -/
def alsaSupportFrequencies : List ℕ := [44100, 48000, 96000]

/-- `ALSADriver::support_latencies` (alsa.rs line 164). -/
def alsaSupportLatencies : List ℕ := [20, 40, 60, 80, 100]

/-- The caller-visible state of `ALSADriver`. -/
structure AlsaDriver where
  deviceNames : List String
  prev : AlsaPrev
deriving DecidableEq, Repr

/-- The hardware-opening constructor `ALSADriverPrev::new(name, latency,
frequency, blocking)` consults the sound stack; the setters are modelled
uniformly in an arbitrary constructor `mk`, so that a setter's
independence from `mk` states that no stream rebuild occurred. -/
def AlsaMk : Type := String → ℕ → ℕ → Bool → Except AlsaError AlsaPrev

/-- `ALSADriver::set_device` (alsa.rs lines 168-178). -/
def alsaSetDevice (mk : AlsaMk) (st : AlsaDriver) (device : String) :
    Except AlsaError AlsaDriver :=
  if ¬ st.deviceNames.contains device then
    Except.error (AlsaError.deviceNotFound device)
  else if st.prev.name = device then
    Except.ok st
  else
    (mk device st.prev.latency st.prev.frequency st.prev.blocking).map
      (fun p => { st with prev := p })

/-- `ALSADriver::set_blocking` (alsa.rs lines 185-192). -/
def alsaSetBlocking (mk : AlsaMk) (st : AlsaDriver) (blocking : Bool) :
    Except AlsaError AlsaDriver :=
  if st.prev.blocking = blocking then
    Except.ok st
  else
    (mk st.prev.name st.prev.latency st.prev.frequency blocking).map
      (fun p => { st with prev := p })

/-- `ALSADriver::set_frequency` (alsa.rs lines 194-205). -/
def alsaSetFrequency (mk : AlsaMk) (st : AlsaDriver) (frequency : ℕ) :
    Except AlsaError AlsaDriver :=
  if ¬ alsaSupportFrequencies.contains frequency then
    Except.error (AlsaError.unsupported ("frequency: " ++ toString frequency))
  else if st.prev.frequency = frequency then
    Except.ok st
  else
    (mk st.prev.name st.prev.latency frequency st.prev.blocking).map
      (fun p => { st with prev := p })

/-- `ALSADriver::set_latency` (alsa.rs lines 207-218). -/
def alsaSetLatency (mk : AlsaMk) (st : AlsaDriver) (latency : ℕ) :
    Except AlsaError AlsaDriver :=
  if ¬ alsaSupportLatencies.contains latency then
    Except.error (AlsaError.unsupported ("latency: " ++ toString latency))
  else if st.prev.latency = latency then
    Except.ok st
  else
    (mk st.prev.name latency st.prev.frequency st.prev.blocking).map
      (fun p => { st with prev := p })

/-! ## Event-driven backend (src/audio/wasapi.rs)

The padding query and the readiness-event wait are oracle parameters:
`padding` is the value a successful `GetCurrentPadding` returns, and
`signaled` tells whether `WaitForSingleObject` returned `WAIT_OBJECT_0`.
`GetBuffer`/`ReleaseBuffer` failures are not modelled (no claim touches
them); the hardware memory the conversion loop fills is modelled as the
list of converted frames. -/

/-- The event-driven backend's error type (`wasapi::Error`, the variants
the embedded operations can produce). -/
inductive WError where
  | deviceNotFound (name : String)
  | waitTimeout
deriving DecidableEq, Repr

/-- One hardware frame as the conversion loop writes it: the converted
values for the first `min(channels, sample.len())` slots (`zip` stops at
the shorter side; slots past the sample's length are left unwritten). -/
inductive WFrame where
  | i16Frame (vals : List ℤ)
  | i32Frame (vals : List ℤ)
  | f32Frame (vals : List ℚ)
deriving DecidableEq, Repr

/-- The mutable state of `WASAPIDriverPrev` that the claims observe.  The
`VecDeque` of pending frames has its front at the list head. -/
structure WPrev where
  bufferSize : ℕ
  channels : ℕ
  exclusive : Bool
  frequency : ℕ
  latency : ℤ
  mode : ℕ
  precision : ℕ
  samples : List (List ℚ)
deriving DecidableEq, Repr

/-- `u32` wrapping subtraction, for `self.buffer_size - padding`
(wasapi.rs line 194); equals ordinary subtraction when
`padding ≤ bufferSize < 2^32`. -/
def u32sub (a b : ℕ) : ℕ :=
  (a + 2 ^ 32 - b % 2 ^ 32) % 2 ^ 32

/-- The conversion loop of `WASAPIDriverPrev::write` (wasapi.rs lines
201-240): pop `length` frames from the front, converting each according
to the negotiated `(SubFormat.data1, wBitsPerSample)` pair; an
unsupported pair pops one frame, raises `AUDCLNT_BUFFERFLAGS_SILENT`
(the `Bool` result) and breaks.  Popping an empty queue is the source's
`unwrap` panic (`none`). -/
def wasapiConvertLoop (mode precision channels : ℕ) :
    ℕ → List (List ℚ) → Option (List WFrame × List (List ℚ) × Bool)
  | 0, queue => some ([], queue, false)
  | n + 1, queue =>
    match queue with
    | [] => none
    | sample :: rest =>
      if mode = 1 ∧ precision = 16 then
        (wasapiConvertLoop mode precision channels n rest).map (fun r =>
          (WFrame.i16Frame ((sample.take channels).map toI16) :: r.1, r.2))
      else if mode = 1 ∧ precision = 32 then
        (wasapiConvertLoop mode precision channels n rest).map (fun r =>
          (WFrame.i32Frame ((sample.take channels).map toI32) :: r.1, r.2))
      else if mode = 3 ∧ precision = 32 then
        (wasapiConvertLoop mode precision channels n rest).map (fun r =>
          (WFrame.f32Frame ((sample.take channels).map clampF32) :: r.1, r.2))
      else
        some ([], rest, true)

/-- The `available` local of `WASAPIDriverPrev::write` (wasapi.rs lines
193-198): `buffer_size - padding` (`u32` arithmetic) in shared mode, the
whole buffer in exclusive mode. -/
def wasapiAvail (padding : ℕ) (st : WPrev) : ℕ :=
  if ¬ st.exclusive then u32sub st.bufferSize padding else st.bufferSize

/-- The `length` local of `WASAPIDriverPrev::write` (wasapi.rs line
199): `available.min(self.samples.len() as u32)` — the frame count one
delivery submits. -/
def wasapiLength (padding : ℕ) (st : WPrev) : ℕ :=
  min (wasapiAvail padding st) (st.samples.length % 2 ^ 32)

/-- `WASAPIDriverPrev::write` (wasapi.rs lines 192-245): `length` frames
are obtained with `GetBuffer(length)`, filled by the conversion loop, and
submitted with `ReleaseBuffer(length, flags)`.  Returns the new state,
the frames written, the silent flag and the submitted `length`. -/
def wasapiWrite (padding : ℕ) (st : WPrev) :
    Option (WPrev × List WFrame × Bool × ℕ) :=
  (wasapiConvertLoop st.mode st.precision st.channels (wasapiLength padding st) st.samples).map
    (fun r => ({ st with samples := r.2.1 }, r.1, r.2.2, wasapiLength padding st))

/-- The caller-visible state of `WASAPIDriver`. -/
structure WDriver where
  prev : WPrev
  currentDeviceName : String
  deviceNames : List String
  deviceIds : List String
  blocking : Bool
deriving DecidableEq, Repr

/-- The hardware-opening constructor `WASAPIDriverPrev::new(device,
exclusive, latency)`; as for the polling backend, the setters are
modelled in an arbitrary constructor so that independence from it states
that no stream rebuild occurred. -/
def WasapiMk : Type := String → Bool → ℤ → Except WError WPrev

/-- `WASAPIDriver::reset` (wasapi.rs lines 394-416): look the current
display name up in the id/name lists and rebuild the stream with the
current exclusivity and latency. -/
def wasapiReset (mk : WasapiMk) (st : WDriver) : Except WError WDriver :=
  match (st.deviceIds.zip st.deviceNames).find? (fun p => p.2 == st.currentDeviceName) with
  | none => Except.error (WError.deviceNotFound st.currentDeviceName)
  | some p =>
    (mk p.1 st.prev.exclusive st.prev.latency).map (fun q => { st with prev := q })

/-- `WASAPIDriver::set_exclusive` (wasapi.rs lines 444-452 of the trait
impl): no-op on equal value, otherwise update the flag and `reset`. -/
def wasapiSetExclusive (mk : WasapiMk) (st : WDriver) (exclusive : Bool) :
    Except WError WDriver :=
  if st.prev.exclusive = exclusive then
    Except.ok st
  else
    wasapiReset mk { st with prev := { st.prev with exclusive := exclusive } }

/-- `WASAPIDriver::set_device`: no-op on equal name, otherwise update the
current name and `reset`. -/
def wasapiSetDevice (mk : WasapiMk) (st : WDriver) (device : String) :
    Except WError WDriver :=
  if st.currentDeviceName = device then
    Except.ok st
  else
    wasapiReset mk { st with currentDeviceName := device }

/-- `WASAPIDriver::set_blocking` (wasapi.rs lines 423-430): no-op on
equal value, otherwise update the flag — the stream is not rebuilt. -/
def wasapiSetBlocking (st : WDriver) (blocking : Bool) : Except WError WDriver :=
  if st.blocking = blocking then
    Except.ok st
  else
    Except.ok { st with blocking := blocking }

/-- `WASAPIDriver::set_latency` (wasapi.rs lines 432-440): no-op when the
requested value (`latency as i64`) equals the current one, otherwise
update it and `reset`. -/
def wasapiSetLatency (mk : WasapiMk) (st : WDriver) (latency : ℕ) :
    Except WError WDriver :=
  if st.prev.latency = (latency : ℤ) then
    Except.ok st
  else
    wasapiReset mk { st with prev := { st.prev with latency := (latency : ℤ) } }

/-- `WASAPIDriver::output` (wasapi.rs lines 442-461): slice
`samples[0..channels]` (panicking when the input is shorter), push the
frame to the back of the queue; if the queue now holds at least
`buffer_size` frames, wait on the readiness event (infinite timeout in
blocking mode, zero in non-blocking mode) — on `WAIT_OBJECT_0` deliver
once via `write`, otherwise return `WaitTimeout` with the frame still
enqueued.  The state is returned alongside the result, as the source
mutates `self` before any error exit. -/
def wasapiOutput (st : WDriver) (padding : ℕ) (signaled : Bool)
    (samples : List ℚ) : Option (WDriver × Except WError Unit) :=
  if st.prev.channels ≤ samples.length then
    if st.prev.bufferSize ≤ (st.prev.samples ++ [samples.take st.prev.channels]).length then
      if signaled then
        match wasapiWrite padding
            { st.prev with samples := st.prev.samples ++ [samples.take st.prev.channels] } with
        | none => none
        | some (prev2, _, _, _) => some ({ st with prev := prev2 }, Except.ok ())
      else
        some ({ st with prev := { st.prev with
            samples := st.prev.samples ++ [samples.take st.prev.channels] } },
          Except.error WError.waitTimeout)
    else
      some ({ st with prev := { st.prev with
          samples := st.prev.samples ++ [samples.take st.prev.channels] } },
        Except.ok ())
  else
    none

/-! ## Conversion lemmas -/

lemma ratTrunc_le_of_le {x : ℚ} {m : ℤ} (hm : 0 ≤ m) (h : x ≤ (m : ℚ)) :
    ratTrunc x ≤ m := by
  unfold ratTrunc
  split
  · exact (Int.floor_le_floor h).trans_eq (Int.floor_intCast m)
  · have hx : x ≤ 0 := le_of_not_le (by assumption)
    calc ⌈x⌉ ≤ ⌈(0 : ℚ)⌉ := Int.ceil_le_ceil hx
    _ = 0 := by simp
    _ ≤ m := hm

lemma le_ratTrunc_of_le {x : ℚ} {m : ℤ} (hm : m ≤ 0) (h : (m : ℚ) ≤ x) :
    m ≤ ratTrunc x := by
  unfold ratTrunc
  split
  · have hx : (0 : ℚ) ≤ x := by assumption
    calc m ≤ 0 := hm
    _ = ⌊(0 : ℚ)⌋ := by simp
    _ ≤ ⌊x⌋ := Int.floor_le_floor hx
  · calc m = ⌈(m : ℚ)⌉ := (Int.ceil_intCast m).symm
    _ ≤ ⌈x⌉ := Int.ceil_le_ceil h

/-- For amplitudes in `[-1, 1]` the saturating `as i16` cast never
saturates: it is plain truncation toward zero, with result in
`[-32767, 32767]`. -/
lemma toI16_eq_ratTrunc {a : ℚ} (h1 : -1 ≤ a) (h2 : a ≤ 1) :
    toI16 a = ratTrunc (a * 32767) ∧
      -32767 ≤ ratTrunc (a * 32767) ∧ ratTrunc (a * 32767) ≤ 32767 := by
  have hxu : a * 32767 ≤ ((32767 : ℤ) : ℚ) := by
    push_cast
    nlinarith
  have hxl : ((-32767 : ℤ) : ℚ) ≤ a * 32767 := by
    push_cast
    nlinarith
  have hu : ratTrunc (a * 32767) ≤ 32767 := ratTrunc_le_of_le (by norm_num) hxu
  have hl : -32767 ≤ ratTrunc (a * 32767) := le_ratTrunc_of_le (by norm_num) hxl
  refine ⟨?_, hl, hu⟩
  unfold toI16 castI16
  rw [min_eq_right hu, max_eq_right (by omega)]

/-- Truncation toward zero moves a rational by less than one. -/
lemma abs_ratTrunc_sub_le (x : ℚ) : |(ratTrunc x : ℚ) - x| ≤ 1 := by
  unfold ratTrunc
  split
  · rw [abs_le]
    constructor
    · have := Int.sub_one_lt_floor x
      linarith
    · have := Int.floor_le x
      linarith
  · rw [abs_le]
    constructor
    · have := Int.le_ceil x
      linarith
    · have := Int.ceil_lt_add_one x
      linarith

/-! ## C6 — 16-bit conversion formula -/

/-- C6, counterexample: the claim says the value written for amplitude
`a` is `round(a * 32767)`, but at `a = 1/2` the code's cast yields
`16383` while `round(16383.5) = 16384`. -/
theorem c6_counterexample :
    toI16 (1 / 2) = 16383 ∧ specRound16 (1 / 2) = 16384 ∧
      toI16 (1 / 2) ≠ specRound16 (1 / 2) := by
  have hf : (⌊(1 / 2 : ℚ) * 32767⌋ : ℤ) = 16383 := by
    rw [Int.floor_eq_iff]
    constructor <;> norm_num
  have ht : toI16 (1 / 2) = 16383 := by
    unfold toI16 castI16 ratTrunc
    rw [if_pos (by norm_num), hf]
    norm_num
  have hr : specRound16 (1 / 2) = 16384 := by
    unfold specRound16
    rw [round_eq, show ((1 / 2 : ℚ) * 32767 + 1 / 2) = ((16384 : ℤ) : ℚ) by norm_num,
      Int.floor_intCast]
  exact ⟨ht, hr, by rw [ht, hr]; decide⟩

/-- C6, amended: for every amplitude in `[-1.0, 1.0]` delivered to a
16-bit signed integer stream, the value written to hardware equals the
truncation toward zero of `amplitude * 32767` (the saturating `as i16`
cast, which never saturates on this range and stays in
`[-32767, 32767]`). -/
theorem c6_conversion_truncates (a : ℚ) (h1 : -1 ≤ a) (h2 : a ≤ 1) :
    toI16 a = ratTrunc (a * 32767) ∧
      -32767 ≤ toI16 a ∧ toI16 a ≤ 32767 := by
  obtain ⟨he, hl, hu⟩ := toI16_eq_ratTrunc h1 h2
  exact ⟨he, he ▸ hl, he ▸ hu⟩

/-- Witness for C6 at `a = 1/2`. -/
theorem c6_conversion_truncates_witness :
    (-1 ≤ (1 : ℚ) / 2 ∧ (1 : ℚ) / 2 ≤ 1) ∧
      (toI16 (1 / 2) = ratTrunc ((1 / 2) * 32767) ∧
        -32767 ≤ toI16 (1 / 2) ∧ toI16 (1 / 2) ≤ 32767) :=
  ⟨by norm_num, c6_conversion_truncates (1 / 2) (by norm_num) (by norm_num)⟩

/-! ## C7 — round-trip error bound -/

/-- C7: for every amplitude in `[-1, 1]` the 16-bit conversion
round-trips within one quantization step:
`|convert(a) / 32767 - a| ≤ 1 / 32767`. -/
theorem c7_roundtrip_bound (a : ℚ) (h1 : -1 ≤ a) (h2 : a ≤ 1) :
    |(toI16 a : ℚ) / 32767 - a| ≤ 1 / 32767 := by
  obtain ⟨he, _, _⟩ := toI16_eq_ratTrunc h1 h2
  have habs := abs_ratTrunc_sub_le (a * 32767)
  have hq : (toI16 a : ℚ) / 32767 - a = ((ratTrunc (a * 32767) : ℚ) - a * 32767) / 32767 := by
    rw [he]
    ring
  rw [hq, abs_div, abs_of_pos (by norm_num : (0 : ℚ) < 32767)]
  exact div_le_div_of_nonneg_right habs (by norm_num) |>.trans_eq (by norm_num)

/-- Witness for C7 at `a = 1/3`. -/
theorem c7_roundtrip_bound_witness :
    (-1 ≤ (1 : ℚ) / 3 ∧ (1 : ℚ) / 3 ≤ 1) ∧
      |(toI16 (1 / 3) : ℚ) / 32767 - 1 / 3| ≤ 1 / 32767 :=
  ⟨by norm_num, c7_roundtrip_bound (1 / 3) (by norm_num) (by norm_num)⟩

/-! ## Concrete states used by witnesses and counterexamples -/

/-- A below-threshold polling-backend stream state (period 4 frames, the
internal buffer empty). -/
def alsaStA : AlsaPrev :=
  { blocking := false, buffer := [], bufferSize := 2048, frequency := 44100,
    latency := 20, name := "default", periodSize := 4 }

/-- A polling-backend driver over two devices, currently on the first. -/
def alsaDrvA : AlsaDriver :=
  { deviceNames := ["default", "hw:0"], prev := alsaStA }

/-- An event-driven stream state: 2 channels, 32-bit float wire format,
hardware buffer of 1 frame (so the very next push reaches threshold). -/
def wPrevA : WPrev :=
  { bufferSize := 1, channels := 2, exclusive := false, frequency := 48000,
    latency := 40, mode := 3, precision := 32, samples := [] }

/-- An event-driven driver in blocking mode on its sole device. -/
def wDrvA : WDriver :=
  { prev := wPrevA, currentDeviceName := "Speakers",
    deviceNames := ["Speakers"], deviceIds := ["dev0"], blocking := true }

/-- A constructor oracle that always fails; instantiating a setter theorem
with it shows the setter never consulted the Stream Negotiator. -/
def alsaMkFail : AlsaMk := fun _ _ _ _ => Except.error AlsaError.noDevice

/-- The failing event-driven constructor oracle. -/
def wasapiMkFail : WasapiMk := fun _ _ _ => Except.error (WError.deviceNotFound "none")

/-! ## C4 — setter idempotence -/

/-- C4: every setter of both backends, called with the value the engine
currently holds, returns `Ok` with the state unchanged (so the
`HardwareStream` is the same one) and never consults the stream
constructor — the conclusion holds for arbitrary constructor oracles
`mkA`, `mkW`. -/
theorem c4_setter_idempotent (mkA : AlsaMk) (mkW : WasapiMk)
    (sa : AlsaDriver) (sw : WDriver)
    (hdev : sa.deviceNames.contains sa.prev.name = true)
    (hfreq : alsaSupportFrequencies.contains sa.prev.frequency = true)
    (hlat : alsaSupportLatencies.contains sa.prev.latency = true) :
    alsaSetDevice mkA sa sa.prev.name = Except.ok sa ∧
    alsaSetBlocking mkA sa sa.prev.blocking = Except.ok sa ∧
    alsaSetFrequency mkA sa sa.prev.frequency = Except.ok sa ∧
    alsaSetLatency mkA sa sa.prev.latency = Except.ok sa ∧
    wasapiSetExclusive mkW sw sw.prev.exclusive = Except.ok sw ∧
    wasapiSetDevice mkW sw sw.currentDeviceName = Except.ok sw ∧
    wasapiSetBlocking sw sw.blocking = Except.ok sw ∧
    (∀ l : ℕ, sw.prev.latency = (l : ℤ) → wasapiSetLatency mkW sw l = Except.ok sw) := by
  have hdev' : sa.prev.name ∈ sa.deviceNames := by simpa using hdev
  have hfreq' : sa.prev.frequency ∈ alsaSupportFrequencies := by simpa using hfreq
  have hlat' : sa.prev.latency ∈ alsaSupportLatencies := by simpa using hlat
  refine ⟨?_, ?_, ?_, ?_, ?_, ?_, ?_, ?_⟩
  · simp [alsaSetDevice, hdev']
  · simp [alsaSetBlocking]
  · simp [alsaSetFrequency, hfreq']
  · simp [alsaSetLatency, hlat']
  · simp [wasapiSetExclusive]
  · simp [wasapiSetDevice]
  · simp [wasapiSetBlocking]
  · intro l hl
    simp [wasapiSetLatency, hl]

/-- Witness for C4 on the concrete driver states, with the
always-failing constructor oracles. -/
theorem c4_setter_idempotent_witness :
    (alsaDrvA.deviceNames.contains alsaDrvA.prev.name = true ∧
      alsaSupportFrequencies.contains alsaDrvA.prev.frequency = true ∧
      alsaSupportLatencies.contains alsaDrvA.prev.latency = true) ∧
    (alsaSetDevice alsaMkFail alsaDrvA alsaDrvA.prev.name = Except.ok alsaDrvA ∧
      alsaSetBlocking alsaMkFail alsaDrvA alsaDrvA.prev.blocking = Except.ok alsaDrvA ∧
      alsaSetFrequency alsaMkFail alsaDrvA alsaDrvA.prev.frequency = Except.ok alsaDrvA ∧
      alsaSetLatency alsaMkFail alsaDrvA alsaDrvA.prev.latency = Except.ok alsaDrvA ∧
      wasapiSetExclusive wasapiMkFail wDrvA wDrvA.prev.exclusive = Except.ok wDrvA ∧
      wasapiSetDevice wasapiMkFail wDrvA wDrvA.currentDeviceName = Except.ok wDrvA ∧
      wasapiSetBlocking wDrvA wDrvA.blocking = Except.ok wDrvA ∧
      (∀ l : ℕ, wDrvA.prev.latency = (l : ℤ) →
        wasapiSetLatency wasapiMkFail wDrvA l = Except.ok wDrvA)) :=
  ⟨⟨by decide, by decide, by decide⟩,
    c4_setter_idempotent alsaMkFail wasapiMkFail alsaDrvA wDrvA
      (by decide) (by decide) (by decide)⟩

/-! ## C5 — genuine change rebuilds the stream -/

/-- C5, counterexample: the event-driven backend's blocking-mode setter,
invoked with a genuinely different value, returns `Ok` after merely
updating the flag — the `HardwareStream` (`prev`) is exactly the one held
before, so no close/reopen occurred. -/
theorem c5_counterexample :
    wDrvA.blocking = true ∧
    wasapiSetBlocking wDrvA false = Except.ok { wDrvA with blocking := false } ∧
    ({ wDrvA with blocking := false }).prev = wDrvA.prev := by
  refine ⟨rfl, ?_, rfl⟩
  simp [wasapiSetBlocking, wDrvA]

/-- C5, amended: every setter invoked with a genuinely different value
closes the current `HardwareStream` and reopens one through the Stream
Negotiator with the new parameter while every other parameter keeps its
current value — except the event-driven backend's blocking-mode setter,
which only updates the flag and leaves the stream untouched.  The
negotiator invocation is visible as the exact argument list passed to
the constructor oracle. -/
theorem c5_rebuild_preserves_params (mkA : AlsaMk) (mkW : WasapiMk)
    (sa : AlsaDriver) (sw : WDriver) :
    (∀ d, sa.deviceNames.contains d = true → sa.prev.name ≠ d →
      alsaSetDevice mkA sa d =
        (mkA d sa.prev.latency sa.prev.frequency sa.prev.blocking).map
          (fun p => { sa with prev := p })) ∧
    (∀ b, sa.prev.blocking ≠ b →
      alsaSetBlocking mkA sa b =
        (mkA sa.prev.name sa.prev.latency sa.prev.frequency b).map
          (fun p => { sa with prev := p })) ∧
    (∀ f, alsaSupportFrequencies.contains f = true → sa.prev.frequency ≠ f →
      alsaSetFrequency mkA sa f =
        (mkA sa.prev.name sa.prev.latency f sa.prev.blocking).map
          (fun p => { sa with prev := p })) ∧
    (∀ l, alsaSupportLatencies.contains l = true → sa.prev.latency ≠ l →
      alsaSetLatency mkA sa l =
        (mkA sa.prev.name l sa.prev.frequency sa.prev.blocking).map
          (fun p => { sa with prev := p })) ∧
    (∀ b pr, sw.prev.exclusive ≠ b →
      (sw.deviceIds.zip sw.deviceNames).find? (fun p => p.2 == sw.currentDeviceName) =
        some pr →
      wasapiSetExclusive mkW sw b =
        (mkW pr.1 b sw.prev.latency).map
          (fun q => { sw with prev := q })) ∧
    (∀ d pr, sw.currentDeviceName ≠ d →
      (sw.deviceIds.zip sw.deviceNames).find? (fun p => p.2 == d) = some pr →
      wasapiSetDevice mkW sw d =
        (mkW pr.1 sw.prev.exclusive sw.prev.latency).map
          (fun q => { sw with currentDeviceName := d, prev := q })) ∧
    (∀ l : ℕ, ∀ pr, sw.prev.latency ≠ (l : ℤ) →
      (sw.deviceIds.zip sw.deviceNames).find? (fun p => p.2 == sw.currentDeviceName) =
        some pr →
      wasapiSetLatency mkW sw l =
        (mkW pr.1 sw.prev.exclusive (l : ℤ)).map
          (fun q => { sw with prev := q })) ∧
    (∀ b, sw.blocking ≠ b →
      wasapiSetBlocking sw b = Except.ok { sw with blocking := b }) := by
  refine ⟨?_, ?_, ?_, ?_, ?_, ?_, ?_, ?_⟩
  · intro d hcont hne
    have hmem : d ∈ sa.deviceNames := by simpa using hcont
    simp [alsaSetDevice, hmem, hne]
  · intro b hne
    simp [alsaSetBlocking, hne]
  · intro f hcont hne
    have hmem : f ∈ alsaSupportFrequencies := by simpa using hcont
    simp [alsaSetFrequency, hmem, hne]
  · intro l hcont hne
    have hmem : l ∈ alsaSupportLatencies := by simpa using hcont
    simp [alsaSetLatency, hmem, hne]
  · intro b pr hne hfind
    simp only [wasapiSetExclusive, if_neg hne, wasapiReset, hfind]
  · intro d pr hne hfind
    simp only [wasapiSetDevice, if_neg hne, wasapiReset, hfind]
  · intro l pr hne hfind
    simp only [wasapiSetLatency, if_neg hne, wasapiReset, hfind]
  · intro b hne
    simp [wasapiSetBlocking, hne]

/-- Witness for C5: the polling backend's latency setter with a genuine
change (20 → 40) on the concrete driver, under the failing oracle. -/
theorem c5_rebuild_preserves_params_witness :
    (alsaSupportLatencies.contains 40 = true ∧ alsaDrvA.prev.latency ≠ 40) ∧
    alsaSetLatency alsaMkFail alsaDrvA 40 =
      (alsaMkFail alsaDrvA.prev.name 40 alsaDrvA.prev.frequency
        alsaDrvA.prev.blocking).map (fun p => { alsaDrvA with prev := p }) :=
  ⟨⟨by decide, by decide⟩,
    (c5_rebuild_preserves_params alsaMkFail wasapiMkFail alsaDrvA wDrvA).2.2.2.1
      40 (by decide) (by decide)⟩

/-! ## C3 — submission bound of the event-driven delivery -/

/-- The conversion loop succeeds whenever it is asked for no more frames
than the queue holds (the only `none` source is popping an empty queue). -/
lemma wasapiConvertLoop_isSome (mode precision channels : ℕ) :
    ∀ (n : ℕ) (queue : List (List ℚ)), n ≤ queue.length →
      (wasapiConvertLoop mode precision channels n queue).isSome = true := by
  intro n
  induction n with
  | zero => intro queue _; simp [wasapiConvertLoop]
  | succ m ih =>
    intro queue hlen
    match queue with
    | [] => simp at hlen
    | sample :: rest =>
      have hrest : m ≤ rest.length := by simpa using hlen
      have := ih rest hrest
      unfold wasapiConvertLoop
      split_ifs <;> simp_all

/-- `u32` subtraction is exact when no underflow occurs. -/
lemma u32sub_eq {a b : ℕ} (hb : b ≤ a) (ha : a < 2 ^ 32) : u32sub a b = a - b := by
  unfold u32sub
  omega

/-- C3: whenever the event-driven backend delivers in shared mode (with
the padding the hardware reported not exceeding the buffer size), the
number of frames submitted (`ReleaseBuffer`'s argument) is exactly
`min (bufferSize - currentPadding) (queued frames)` — in particular never
more than `bufferSize - currentPadding`; in exclusive mode the available
space is taken to be the whole buffer and `min (bufferSize, queued)`
frames are submitted. -/
theorem c3_submission_bound (st : WPrev) (padding : ℕ)
    (hb : st.bufferSize < 2 ^ 32) (hq : st.samples.length < 2 ^ 32) :
    (st.exclusive = false → padding ≤ st.bufferSize →
      ∃ st2 fs fl, wasapiWrite padding st =
          some (st2, fs, fl, min (st.bufferSize - padding) st.samples.length) ∧
        min (st.bufferSize - padding) st.samples.length ≤ st.bufferSize - padding) ∧
    (st.exclusive = true →
      ∃ st2 fs fl, wasapiWrite padding st =
          some (st2, fs, fl, min st.bufferSize st.samples.length)) := by
  have hmod : st.samples.length % 2 ^ 32 = st.samples.length := Nat.mod_eq_of_lt hq
  constructor
  · intro hex hpad
    have hlen : wasapiLength padding st = min (st.bufferSize - padding) st.samples.length := by
      unfold wasapiLength wasapiAvail
      rw [hex, hmod]
      simp [u32sub_eq hpad hb]
    have hsome := wasapiConvertLoop_isSome st.mode st.precision st.channels
      (wasapiLength padding st) st.samples (by rw [hlen]; exact min_le_right _ _)
    obtain ⟨r, hr⟩ := Option.isSome_iff_exists.mp hsome
    refine ⟨{ st with samples := r.2.1 }, r.1, r.2.2, ?_, min_le_left _ _⟩
    unfold wasapiWrite
    rw [hr]
    simp [hlen]
  · intro hex
    have hlen : wasapiLength padding st = min st.bufferSize st.samples.length := by
      unfold wasapiLength wasapiAvail
      rw [hex, hmod]
      simp
    have hsome := wasapiConvertLoop_isSome st.mode st.precision st.channels
      (wasapiLength padding st) st.samples (by rw [hlen]; exact min_le_right _ _)
    obtain ⟨r, hr⟩ := Option.isSome_iff_exists.mp hsome
    refine ⟨{ st with samples := r.2.1 }, r.1, r.2.2, ?_⟩
    unfold wasapiWrite
    rw [hr]
    simp [hlen]

/-- Witness for C3 on the concrete shared-mode stream state. -/
theorem c3_submission_bound_witness :
    (wPrevA.bufferSize < 2 ^ 32 ∧ wPrevA.samples.length < 2 ^ 32 ∧
      wPrevA.exclusive = false ∧ 0 ≤ wPrevA.bufferSize) ∧
    (∃ st2 fs fl, wasapiWrite 0 wPrevA =
        some (st2, fs, fl, min (wPrevA.bufferSize - 0) wPrevA.samples.length) ∧
      min (wPrevA.bufferSize - 0) wPrevA.samples.length ≤ wPrevA.bufferSize - 0) :=
  ⟨⟨by decide, by decide, by decide, by decide⟩,
    (c3_submission_bound wPrevA 0 (by decide) (by decide)).1 (by decide) (by decide)⟩

/-! ## C9 — non-atomic enqueue on WaitTimeout -/

/-- C9: whenever a non-blocking `output()` call on the event-driven
backend returns `WaitTimeout`, the frame of that call was already
appended: the queue afterwards is the old queue plus the sliced frame,
one longer than before — and retrying the same frame while the event
stays unsignalled appends it a second time. -/
theorem c9_timeout_enqueues (st st' : WDriver) (padding : ℕ) (samples : List ℚ)
    (_hblock : st.blocking = false)
    (h : wasapiOutput st padding false samples =
      some (st', Except.error WError.waitTimeout)) :
    st'.prev.samples = st.prev.samples ++ [samples.take st.prev.channels] ∧
    st'.prev.samples.length = st.prev.samples.length + 1 ∧
    wasapiOutput st' padding false samples =
      some ({ st' with prev := { st'.prev with
          samples := st'.prev.samples ++ [samples.take st.prev.channels] } },
        Except.error WError.waitTimeout) := by
  unfold wasapiOutput at h
  split_ifs at h with h1 h2 h3
  · exact h3.elim
  · have hst : st' = { st with prev := { st.prev with
        samples := st.prev.samples ++ [samples.take st.prev.channels] } } :=
      congrArg Prod.fst (Option.some.inj h) |>.symm
    subst hst
    refine ⟨rfl, by simp, ?_⟩
    unfold wasapiOutput
    rw [if_pos (show st.prev.channels ≤ samples.length from h1)]
    rw [if_pos (by simp at h2 ⊢; omega), if_neg Bool.false_ne_true]
  · simp at h

/-- The concrete driver of the C9 witness: `wDrvA` switched to
non-blocking mode. -/
def wDrvA9 : WDriver := { wDrvA with blocking := false }

/-- The state after the C9 witness call: the frame `[0, 0]` enqueued. -/
def wDrvA9' : WDriver :=
  { wDrvA9 with prev := { wDrvA9.prev with samples := [[0, 0]] } }

/-- Witness for C9: a 2-channel stream whose buffer holds one frame, so
the first push reaches threshold; the unsignalled non-blocking wait
returns `WaitTimeout` with the frame enqueued. -/
theorem c9_timeout_enqueues_witness :
    ((wDrvA9.blocking = false) ∧
      wasapiOutput wDrvA9 0 false [0, 0] =
        some (wDrvA9', Except.error WError.waitTimeout)) ∧
    (wDrvA9'.prev.samples = wDrvA9.prev.samples ++ [[0, 0]] ∧
      wDrvA9'.prev.samples.length = wDrvA9.prev.samples.length + 1 ∧
      wasapiOutput wDrvA9' 0 false [0, 0] =
        some ({ wDrvA9' with prev := { wDrvA9'.prev with
            samples := wDrvA9'.prev.samples ++ [[0, 0]] } },
          Except.error WError.waitTimeout)) :=
  ⟨⟨rfl, rfl⟩, c9_timeout_enqueues wDrvA9 wDrvA9' 0 [0, 0] rfl rfl⟩

/-! ## C10 — input-slice length requirement of output() -/

/-- One delivery of the event-driven backend never gets stuck: the frame
count it asks of the queue is bounded by the queue's length. -/
lemma wasapiWrite_isSome (padding : ℕ) (st : WPrev) :
    (wasapiWrite padding st).isSome = true := by
  have hle : wasapiLength padding st ≤ st.samples.length :=
    le_trans (min_le_right _ _) (Nat.mod_le _ _)
  obtain ⟨r, hr⟩ := Option.isSome_iff_exists.mp
    (wasapiConvertLoop_isSome st.mode st.precision st.channels
      (wasapiLength padding st) st.samples hle)
  unfold wasapiWrite
  rw [hr]
  rfl

/-- C10: `output()` requires the input slice to hold at least one sample
per negotiated channel (2 for the polling backend).  Any call meeting
that bound is panic-free in its slicing/indexing of the input (the whole
event-driven call is total then); with a one-sample input both backends
panic (`none`) rather than returning an error. -/
theorem c10_output_input_bounds (st : WDriver) (padding : ℕ) (signaled : Bool)
    (samples samplesA : List ℚ)
    (hw : st.prev.channels ≤ samples.length) (ha : 2 ≤ samplesA.length) :
    (wasapiOutput st padding signaled samples).isSome = true ∧
    (alsaReadFrame samplesA).isSome = true ∧
    alsaOutput alsaStA [] [0] = none ∧
    wasapiOutput wDrvA 0 true [0] = none := by
  refine ⟨?_, ?_, rfl, rfl⟩
  · unfold wasapiOutput
    rw [if_pos hw]
    split_ifs
    · obtain ⟨r, hr⟩ := Option.isSome_iff_exists.mp (wasapiWrite_isSome padding
        { st.prev with samples := st.prev.samples ++ [samples.take st.prev.channels] })
      rw [hr]
      obtain ⟨prev2, a, b, c⟩ := r
      rfl
    · rfl
    · rfl
  · match samplesA, ha with
    | s0 :: s1 :: rest, _ => rfl

/-- Witness for C10 with two-sample inputs on the concrete two-channel
states. -/
theorem c10_output_input_bounds_witness :
    (wDrvA.prev.channels ≤ ([0, 0] : List ℚ).length ∧ 2 ≤ ([0, 0] : List ℚ).length) ∧
    ((wasapiOutput wDrvA 0 true [0, 0]).isSome = true ∧
      (alsaReadFrame [0, 0]).isSome = true ∧
      alsaOutput alsaStA [] [0] = none ∧
      wasapiOutput wDrvA 0 true [0] = none) :=
  ⟨⟨by decide, by decide⟩,
    c10_output_input_bounds wDrvA 0 true [0, 0] [0, 0] (by decide) (by decide)⟩

/-! ## C1 — delivery threshold behaviour of output() -/

/-- C1, counterexample to "the call returns without … converting": below
threshold the polling backend's `output` already stores the wire-format
integers — two different amplitudes (`1/2` and `16383/32767`) leave the
engine in the *same* state, which only a push-time conversion can do,
and the state's queue holds the converted integer `16383`, not the
amplitude. -/
theorem c1_counterexample :
    alsaOutput alsaStA [] [(1 : ℚ) / 2, 1 / 2] =
      alsaOutput alsaStA [] [(16383 : ℚ) / 32767, 16383 / 32767] ∧
    ((1 : ℚ) / 2 ≠ 16383 / 32767) ∧
    alsaOutput alsaStA [] [(1 : ℚ) / 2, 1 / 2] =
      some (Except.ok ({ alsaStA with buffer := [16383, 16383] }, [])) := by
  have h1 : toI16 (1 / 2) = 16383 := by
    have hf : (⌊(1 / 2 : ℚ) * 32767⌋ : ℤ) = 16383 := by
      rw [Int.floor_eq_iff]
      constructor <;> norm_num
    unfold toI16 castI16 ratTrunc
    rw [if_pos (by norm_num), hf]
    norm_num
  have h2 : toI16 ((16383 : ℚ) / 32767) = 16383 := by
    have he : ((16383 : ℚ) / 32767) * 32767 = ((16383 : ℤ) : ℚ) := by norm_num
    unfold toI16 castI16 ratTrunc
    rw [he, if_pos (by norm_num), Int.floor_intCast]
    norm_num
  refine ⟨?_, by norm_num, ?_⟩
  · unfold alsaOutput
    simp only [alsaReadFrame]
    rw [h1, h2]
  · unfold alsaOutput
    simp only [alsaReadFrame]
    rw [h1, if_neg (by decide)]
    simp [alsaStA]

/-- C1, amended: while the queue is below the delivery threshold,
`output()` attempts no hardware delivery and does not block — the device
script is returned untouched and the result does not depend on it (nor,
for the event-driven backend, on the padding or the event state); the
polling backend converts the frame to the wire format at push time while
the event-driven backend stores the amplitudes unconverted.  The push
that brings the queue to the threshold synchronously triggers exactly
one invocation of the delivery path before returning. -/
theorem c1_threshold_delivery (sa : AlsaPrev) (script : List DevResp)
    (s0 s1 : ℚ) (rest : List ℚ)
    (sw : WDriver) (padding : ℕ) (signaled : Bool) (samples : List ℚ) :
    (sa.buffer.length + 2 < sa.periodSize * 2 →
      alsaOutput sa script (s0 :: s1 :: rest) =
        some (Except.ok ({ sa with buffer := sa.buffer ++ [toI16 s0, toI16 s1] },
          script))) ∧
    (sa.periodSize * 2 ≤ sa.buffer.length + 2 →
      alsaOutput sa script (s0 :: s1 :: rest) =
        (match alsaWrite script (sa.buffer ++ [toI16 s0, toI16 s1]) with
          | none => none
          | some (Except.error e) => some (Except.error e)
          | some (Except.ok (buf2, r, _)) =>
            some (Except.ok ({ sa with buffer := buf2 }, r)))) ∧
    (sw.prev.channels ≤ samples.length →
      sw.prev.samples.length + 1 < sw.prev.bufferSize →
      wasapiOutput sw padding signaled samples =
        some ({ sw with prev := { sw.prev with
            samples := sw.prev.samples ++ [samples.take sw.prev.channels] } },
          Except.ok ())) ∧
    (sw.prev.channels ≤ samples.length →
      sw.prev.bufferSize ≤ sw.prev.samples.length + 1 → signaled = true →
      wasapiOutput sw padding signaled samples =
        (match wasapiWrite padding { sw.prev with
            samples := sw.prev.samples ++ [samples.take sw.prev.channels] } with
          | none => none
          | some (prev2, _, _, _) => some ({ sw with prev := prev2 }, Except.ok ()))) := by
  refine ⟨?_, ?_, ?_, ?_⟩
  · intro hlt
    unfold alsaOutput
    simp only [alsaReadFrame]
    rw [if_neg (by simp only [List.length_append, List.length_cons, List.length_nil]; omega)]
  · intro hge
    unfold alsaOutput
    simp only [alsaReadFrame]
    rw [if_pos (by simp only [List.length_append, List.length_cons, List.length_nil]; omega)]
  · intro hch hlt
    unfold wasapiOutput
    rw [if_pos hch,
      if_neg (by simp only [List.length_append, List.length_cons, List.length_nil]; omega)]
  · intro hch hge hsig
    subst hsig
    unfold wasapiOutput
    rw [if_pos hch,
      if_pos (by simp only [List.length_append, List.length_cons, List.length_nil]; omega),
      if_pos rfl]

/-- The polling-backend state one push away from threshold (six of the
eight samples of one period already queued). -/
def alsaStB : AlsaPrev := { alsaStA with buffer := [0, 0, 0, 0, 0, 0] }

/-- An event-driven state whose buffer holds 4 frames, so the next push
stays below threshold. -/
def wDrvB : WDriver := { wDrvA with prev := { wPrevA with bufferSize := 4 } }

/-- Witness for C1: a below-threshold and an at-threshold push on each
backend. -/
theorem c1_threshold_delivery_witness :
    (alsaStA.buffer.length + 2 < alsaStA.periodSize * 2 ∧
      alsaStB.periodSize * 2 ≤ alsaStB.buffer.length + 2 ∧
      wDrvB.prev.channels ≤ ([0, 0] : List ℚ).length ∧
      wDrvB.prev.samples.length + 1 < wDrvB.prev.bufferSize ∧
      wDrvA.prev.bufferSize ≤ wDrvA.prev.samples.length + 1) ∧
    (alsaOutput alsaStA [] [0, 0] =
      some (Except.ok ({ alsaStA with buffer := alsaStA.buffer ++ [toI16 0, toI16 0] },
        []))) ∧
    (alsaOutput alsaStB [] [0, 0] =
      (match alsaWrite [] (alsaStB.buffer ++ [toI16 0, toI16 0]) with
        | none => none
        | some (Except.error e) => some (Except.error e)
        | some (Except.ok (buf2, r, _)) =>
          some (Except.ok ({ alsaStB with buffer := buf2 }, r)))) ∧
    (wasapiOutput wDrvB 7 false [0, 0] =
      some ({ wDrvB with prev := { wDrvB.prev with
          samples := wDrvB.prev.samples ++ [([0, 0] : List ℚ).take wDrvB.prev.channels] } },
        Except.ok ())) ∧
    (wasapiOutput wDrvA 7 true [0, 0] =
      (match wasapiWrite 7 { wDrvA.prev with
          samples := wDrvA.prev.samples ++ [([0, 0] : List ℚ).take wDrvA.prev.channels] } with
        | none => none
        | some (prev2, _, _, _) => some ({ wDrvA with prev := prev2 }, Except.ok ()))) :=
  ⟨⟨by decide, by decide, by decide, by decide, by decide⟩,
    (c1_threshold_delivery alsaStA [] 0 0 [] wDrvB 7 false [0, 0]).1 (by decide),
    (c1_threshold_delivery alsaStB [] 0 0 [] wDrvB 7 false [0, 0]).2.1 (by decide),
    (c1_threshold_delivery alsaStA [] 0 0 [] wDrvB 7 false [0, 0]).2.2.1
      (by decide) (by decide),
    (c1_threshold_delivery alsaStA [] 0 0 [] wDrvA 7 true [0, 0]).2.2.2
      (by decide) (by decide) rfl⟩

/-! ## C2 — attempt count and retention of the polling write path -/

/-- Invariants of the delivery-attempt loop, for every successful run:
the final counter equals the initial one minus the number of attempts;
the counter never drops below `-1`; the unsent remainder is always a
suffix of the initial output (the cursor only moves forward); and an
exit with a nonnegative counter means everything was sent. -/
lemma alsaAttemptLoop_spec :
    ∀ (script : List DevResp) (output : List ℤ) (i : ℤ)
      (s2 : List DevResp) (out2 : List ℤ) (i2 : ℤ) (n : ℕ),
      alsaAttemptLoop script output i = some (Except.ok (s2, out2, i2, n)) →
      i2 = i - n ∧ (-1 ≤ i → -1 ≤ i2) ∧ (∃ k, out2 = output.drop k) ∧
        (0 ≤ i2 → out2 = []) := by
  intro script output i
  induction script, output, i using alsaAttemptLoop.induct with
  | case1 script output i hguard =>
    intro s2 out2 i2 n h
    rw [alsaAttemptLoop.eq_def, if_pos hguard] at h
    simp only [Option.some.injEq, Except.ok.injEq, Prod.mk.injEq] at h
    obtain ⟨hs, hout, hi, hn⟩ := h
    subst hs hout hi
    refine ⟨by omega, fun hh => by omega, ⟨0, rfl⟩, fun hpos => ?_⟩
    rcases hguard with hlen | hneg
    · exact List.length_eq_zero.mp hlen
    · omega
  | case2 output i hguard w rest ih =>
    intro s2 out2 i2 n h
    rw [alsaAttemptLoop.eq_def, if_neg hguard] at h
    obtain ⟨r, hr, hmap⟩ := Option.map_eq_some'.mp h
    cases r with
    | error e => simp [Except.map] at hmap
    | ok p =>
      obtain ⟨ps, pout, pi, pn⟩ := p
      simp only [Except.map, Except.ok.injEq, Prod.mk.injEq] at hmap
      obtain ⟨h1, h2, h3, h4⟩ := hmap
      subst h1 h2 h3 h4
      obtain ⟨hi, hge, ⟨k, hk⟩, hemp⟩ := ih ps pout pi pn hr
      have hb : 0 ≤ i := by
        rcases not_or.mp hguard with ⟨_, hh⟩
        omega
      refine ⟨by push_cast; omega, fun _ => hge (by omega), ?_, hemp⟩
      by_cases hw : w * 2 ≤ output.length
      · rw [if_pos hw] at hk
        exact ⟨k + w * 2, by rw [hk, List.drop_drop, Nat.add_comm]⟩
      · rw [if_neg hw] at hk
        exact ⟨k, hk⟩
  | case3 output i hguard e rest ih =>
    intro s2 out2 i2 n h
    rw [alsaAttemptLoop.eq_def, if_neg hguard] at h
    obtain ⟨r, hr, hmap⟩ := Option.map_eq_some'.mp h
    cases r with
    | error e2 => simp [Except.map] at hmap
    | ok p =>
      obtain ⟨ps, pout, pi, pn⟩ := p
      simp only [Except.map, Except.ok.injEq, Prod.mk.injEq] at hmap
      obtain ⟨h1, h2, h3, h4⟩ := hmap
      subst h1 h2 h3 h4
      obtain ⟨hi, hge, hsuf, hemp⟩ := ih ps pout pi pn hr
      have hb : 0 ≤ i := by
        rcases not_or.mp hguard with ⟨_, hh⟩
        omega
      exact ⟨by push_cast; omega, fun _ => hge (by omega), hsuf, hemp⟩
  | case4 output i hguard e e2 rest ih =>
    intro s2 out2 i2 n h
    rw [alsaAttemptLoop.eq_def, if_neg hguard] at h
    obtain ⟨r, hr, hmap⟩ := Option.map_eq_some'.mp h
    cases r with
    | error e3 => simp [Except.map] at hmap
    | ok p =>
      obtain ⟨ps, pout, pi, pn⟩ := p
      simp only [Except.map, Except.ok.injEq, Prod.mk.injEq] at hmap
      obtain ⟨h1, h2, h3, h4⟩ := hmap
      subst h1 h2 h3 h4
      obtain ⟨hi, hge, hsuf, hemp⟩ := ih ps pout pi pn hr
      have hb : 0 ≤ i := by
        rcases not_or.mp hguard with ⟨_, hh⟩
        omega
      exact ⟨by push_cast; omega, fun _ => hge (by omega), hsuf, hemp⟩
  | case5 output i hguard e tail =>
    intro s2 out2 i2 n h
    rw [alsaAttemptLoop.eq_def, if_neg hguard] at h
    cases h
  | case6 script output i hguard hn1 hn2 hn3 hn4 =>
    intro s2 out2 i2 n h
    rw [alsaAttemptLoop.eq_def, if_neg hguard] at h
    split at h
    · exact absurd rfl (hn1 _ _)
    · exact absurd rfl (hn2 _ _)
    · exact absurd rfl (hn3 _ _ _)
    · exact absurd rfl (hn4 _ _)
    · cases h

/-- C2, counterexample to "delivery is attempted at most 4 times": with
a device that refuses every write (recovery succeeding), the loop
`let mut i = 4; while output.len() > 0 && i >= 0 { i -= 1; … }` performs
five `writei` attempts before giving up (the run consumes all five
attempt triples of the script and reports an attempt count of 5). -/
theorem c2_counterexample :
    alsaWrite [DevResp.availOk 2,
      DevResp.ioOk, DevResp.wriErr 9, DevResp.recovOk,
      DevResp.ioOk, DevResp.wriErr 9, DevResp.recovOk,
      DevResp.ioOk, DevResp.wriErr 9, DevResp.recovOk,
      DevResp.ioOk, DevResp.wriErr 9, DevResp.recovOk,
      DevResp.ioOk, DevResp.wriErr 9, DevResp.recovOk] [5, 6] =
        some (Except.ok ([], [], 5)) ∧
    ¬(5 ≤ 4) := by
  exact ⟨by decide, by decide⟩

/-- C2, amended: once the availability loop has succeeded, the delivery
loop makes at most **5** attempts (not 4); each accepted write advances
the send cursor by the accepted frame count, so the unsent remainder is
always a suffix of the queue; and `write` retains, in the exhausted case
(`i < 0`), the queue minus its first 2 samples when nothing at all was
sent and exactly the unsent remainder otherwise, and the empty queue when
the loop delivered everything (`i ≥ 0`). -/
theorem c2_write_attempts_retention (script s1 s2 : List DevResp)
    (buffer out : List ℤ) (i : ℤ) (n : ℕ)
    (h1 : alsaAvailLoop buffer.length script = some (Except.ok s1))
    (h2 : alsaAttemptLoop s1 buffer 4 = some (Except.ok (s2, out, i, n))) :
    alsaWrite script buffer = some (Except.ok (alsaRetain buffer out i, s2, n)) ∧
    n ≤ 5 ∧
    (∃ k, out = buffer.drop k) ∧
    (i < 0 → out.length = buffer.length → alsaRetain buffer out i = buffer.drop 2) ∧
    (i < 0 → out.length ≠ buffer.length → alsaRetain buffer out i = out) ∧
    (0 ≤ i → alsaRetain buffer out i = []) ∧
    (∀ (w : ℕ) (rest : List DevResp) (out2 : List ℤ) (j : ℤ),
      out2 ≠ [] → 0 ≤ j → w * 2 ≤ out2.length →
      alsaAttemptLoop (DevResp.ioOk :: DevResp.wriOk w :: rest) out2 j =
        (alsaAttemptLoop rest (out2.drop (w * 2)) (j - 1)).map
          (fun r => r.map (fun p => (p.1, p.2.1, p.2.2.1, p.2.2.2 + 1)))) := by
  obtain ⟨hi, hge, ⟨k, hk⟩, hemp⟩ := alsaAttemptLoop_spec s1 buffer 4 s2 out i n h2
  refine ⟨?_, ?_, ⟨k, hk⟩, ?_, ?_, ?_, ?_⟩
  · unfold alsaWrite
    simp only [h1, h2]
  · have h5 := hge (by omega)
    omega
  · intro hneg heq
    unfold alsaRetain
    rw [if_pos hneg, if_pos heq]
  · intro hneg hne
    unfold alsaRetain
    rw [if_pos hneg, if_neg hne]
    by_cases hkle : k ≤ buffer.length
    · have hlen : out.length = buffer.length - k := by rw [hk, List.length_drop]
      rw [hlen, hk]
      congr 1
      omega
    · have hout : out = [] := by
        rw [hk]
        exact List.drop_eq_nil_of_le (by omega)
      rw [hout, List.length_nil, Nat.sub_zero, List.drop_length]
  · intro hpos
    unfold alsaRetain
    rw [if_neg (by omega), hemp hpos]
    simp
  · intro w rest out2 j hne hj hw
    have hcond : ¬(out2.length = 0 ∨ j < 0) :=
      not_or.mpr ⟨fun hz => hne (List.length_eq_zero.mp hz), by omega⟩
    rw [alsaAttemptLoop.eq_def, if_neg hcond]
    simp only [if_pos hw]

/-- Witness for C2: a device that accepts one full-frame write on the
first attempt. -/
theorem c2_write_attempts_retention_witness :
    (alsaAvailLoop ([5, 6] : List ℤ).length
        [DevResp.availOk 2, DevResp.ioOk, DevResp.wriOk 1] =
        some (Except.ok [DevResp.ioOk, DevResp.wriOk 1]) ∧
      alsaAttemptLoop [DevResp.ioOk, DevResp.wriOk 1] [5, 6] 4 =
        some (Except.ok ([], [], 3, 1))) ∧
    (alsaWrite [DevResp.availOk 2, DevResp.ioOk, DevResp.wriOk 1] [5, 6] =
        some (Except.ok (alsaRetain [5, 6] [] 3, [], 1)) ∧
      1 ≤ 5 ∧
      (∃ k, ([] : List ℤ) = ([5, 6] : List ℤ).drop k) ∧
      ((3 : ℤ) < 0 → ([] : List ℤ).length = ([5, 6] : List ℤ).length →
        alsaRetain [5, 6] [] 3 = ([5, 6] : List ℤ).drop 2) ∧
      ((3 : ℤ) < 0 → ([] : List ℤ).length ≠ ([5, 6] : List ℤ).length →
        alsaRetain [5, 6] [] 3 = []) ∧
      ((0 : ℤ) ≤ 3 → alsaRetain [5, 6] [] 3 = []) ∧
      (∀ (w : ℕ) (rest : List DevResp) (out2 : List ℤ) (j : ℤ),
        out2 ≠ [] → 0 ≤ j → w * 2 ≤ out2.length →
        alsaAttemptLoop (DevResp.ioOk :: DevResp.wriOk w :: rest) out2 j =
          (alsaAttemptLoop rest (out2.drop (w * 2)) (j - 1)).map
            (fun r => r.map (fun p => (p.1, p.2.1, p.2.2.1, p.2.2.2 + 1))))) :=
  ⟨⟨by decide, by decide⟩,
    c2_write_attempts_retention [DevResp.availOk 2, DevResp.ioOk, DevResp.wriOk 1]
      [DevResp.ioOk, DevResp.wriOk 1] [] [5, 6] [] 3 1 (by decide) (by decide)⟩

/-! ## C8 — propagation of recovery failures -/

/-- C8, counterexample to "a failed recovery call is surfaced in every
branch of the write path": in the write-attempt branch a `writei` error
whose `recover` call itself fails (`recovErr 77`) is only logged — the
loop continues, the next attempt succeeds and `write` returns `Ok`; no
error is ever surfaced from this run. -/
theorem c8_counterexample :
    alsaWrite [DevResp.availOk 2, DevResp.ioOk, DevResp.wriErr 32,
        DevResp.recovErr 77, DevResp.ioOk, DevResp.wriOk 1] [5, 6] =
      some (Except.ok ([], [], 2)) ∧
    ∀ e : ℤ, alsaWrite [DevResp.availOk 2, DevResp.ioOk, DevResp.wriErr 32,
        DevResp.recovErr 77, DevResp.ioOk, DevResp.wriOk 1] [5, 6] ≠
      some (Except.error e) := by
  have hrun : alsaWrite [DevResp.availOk 2, DevResp.ioOk, DevResp.wriErr 32,
      DevResp.recovErr 77, DevResp.ioOk, DevResp.wriOk 1] [5, 6] =
      some (Except.ok ([], [], 2)) := by decide
  refine ⟨hrun, fun e he => ?_⟩
  rw [hrun] at he
  simp at he

/-- C8, amended: a failed recovery is surfaced in the space-query branch
and in the wait branch of the polling write path (the original claim's
first half), but in the write-attempt branch a failed recovery is only
logged and the attempt loop continues with the next attempt. -/
theorem c8_recovery_surfacing :
    (∀ (e e2 : ℤ) (rest : List DevResp) (bufLen : ℕ),
      alsaAvailLoop bufLen (DevResp.availErr e :: DevResp.recovErr e2 :: rest) =
        some (Except.error e2)) ∧
    (∀ (n e e2 : ℤ) (rest : List DevResp) (bufLen : ℕ), n < (bufLen : ℤ) →
      alsaAvailLoop bufLen
          (DevResp.availOk n :: DevResp.waitErr e :: DevResp.recovErr e2 :: rest) =
        some (Except.error e2)) ∧
    (∀ (e e2 : ℤ) (rest : List DevResp) (out : List ℤ) (i : ℤ),
      out ≠ [] → 0 ≤ i →
      alsaAttemptLoop
          (DevResp.ioOk :: DevResp.wriErr e :: DevResp.recovErr e2 :: rest) out i =
        (alsaAttemptLoop rest out (i - 1)).map
          (fun r => r.map (fun p => (p.1, p.2.1, p.2.2.1, p.2.2.2 + 1)))) := by
  refine ⟨fun e e2 rest bufLen => rfl, ?_, ?_⟩
  · intro n e e2 rest bufLen hn
    rw [alsaAvailLoop.eq_def]
    simp only [if_pos hn]
  · intro e e2 rest out i hne hi
    have hcond : ¬(out.length = 0 ∨ i < 0) :=
      not_or.mpr ⟨fun hz => hne (List.length_eq_zero.mp hz), by omega⟩
    rw [alsaAttemptLoop.eq_def, if_neg hcond]

/-- Witness for C8 at concrete scripts for all three branches. -/
theorem c8_recovery_surfacing_witness :
    ((0 : ℤ) < (1 : ℕ) ∧ ([3] : List ℤ) ≠ [] ∧ (0 : ℤ) ≤ 0) ∧
    (alsaAvailLoop 0 [DevResp.availErr 1, DevResp.recovErr 2] =
        some (Except.error 2) ∧
      alsaAvailLoop 1 [DevResp.availOk 0, DevResp.waitErr 1, DevResp.recovErr 2] =
        some (Except.error 2) ∧
      alsaAttemptLoop [DevResp.ioOk, DevResp.wriErr 1, DevResp.recovErr 2] [3] 0 =
        (alsaAttemptLoop [] [3] (0 - 1)).map
          (fun r => r.map (fun p => (p.1, p.2.1, p.2.2.1, p.2.2.2 + 1)))) :=
  ⟨⟨by decide, by decide, by decide⟩,
    c8_recovery_surfacing.1 1 2 [] 0,
    c8_recovery_surfacing.2.1 0 1 2 [] 1 (by decide),
    c8_recovery_surfacing.2.2 1 2 [] [3] 0 (by decide) (by decide)⟩

end Ieaoo
